import Mathlib

/-!
Shallow embedding of the transaction-decoding core of `solana-txn-tui`
(`src/solana/types.rs` and `src/solana/client.rs`), together with proofs
about the normalization pipeline.

Machine integers (`u8`, `u64`, `usize`) are modelled as `Nat`; Rust's
`saturating_sub` coincides with truncated `Nat` subtraction.  A Solana
`Pubkey` is modelled by its canonical base58 display string (base58
decoding of 32-byte arrays is injective, so the display string determines
the key); `Pubkey::from_str` then validates the string and returns it,
and `Pubkey::to_string` is the identity.  Fallible Rust functions
returning `anyhow::Result` become `Except String`.
-/

namespace SolanaTui

/-! ## Base58 decoding (the `bs58` crate, Bitcoin alphabet) -/

def b58Alphabet : List Char :=
  "123456789ABCDEFGHJKLMNPQRSTUVWXYZabcdefghijkmnopqrstuvwxyz".toList

/-- Value of one base58 character, `none` for a character outside the alphabet. -/
def b58Digit (c : Char) : Option Nat :=
  b58Alphabet.findIdx? (fun a => a = c)

/-- Monadic map over `Option`, mirroring decoding that fails on the first bad character. -/
def mapOption (f : α → Option β) : List α → Option (List β)
  | [] => some []
  | x :: xs =>
    match f x with
    | none => none
    | some y =>
      match mapOption f xs with
      | none => none
      | some ys => some (y :: ys)

/-- Big-endian byte expansion of a natural number; `fuel` bounds the number of
produced bytes (callers pass a bound that is at least the true byte length). -/
def natToBytesBEAux : Nat → Nat → List Nat
  | 0, _ => []
  | fuel + 1, n => if n = 0 then [] else natToBytesBEAux fuel (n / 256) ++ [n % 256]

/-- `bs58::decode(s).into_vec()`: fails on a character outside the alphabet,
otherwise interprets the string as a big-endian base58 number, with one
leading zero byte per leading `'1'` character.  The empty string decodes to
the empty byte sequence. -/
def bs58decode (s : String) : Option (List Nat) :=
  match mapOption b58Digit s.toList with
  | none => none
  | some ds =>
    let n := ds.foldl (fun a d => a * 58 + d) 0
    let zeros := (s.toList.takeWhile (fun c => c = '1')).length
    some (List.replicate zeros 0 ++ natToBytesBEAux s.toList.length n)

/-! ## String helpers mirroring the Rust `str` methods used by the pipeline -/

/-- Does `pat` occur at the head of `l`? (helper for substring search). -/
def matchesAt : List Char → List Char → Bool
  | _, [] => true
  | [], _ :: _ => false
  | c :: cs, p :: ps => c = p && matchesAt cs ps

/-- Does `pat` occur anywhere in `l`? (helper for substring search). -/
def containsSub (pat : List Char) : List Char → Bool
  | [] => matchesAt [] pat
  | c :: cs => matchesAt (c :: cs) pat || containsSub pat cs

/-- Rust `str::contains(pat)`: substring containment. -/
def strContains (s pat : String) : Bool :=
  containsSub pat.toList s.toList

/-- Rust `s.split_whitespace().next().unwrap_or("")`: the first
whitespace-delimited token of `s`, or the empty string. -/
def firstToken (s : String) : String :=
  String.mk ((s.toList.dropWhile Char.isWhitespace).takeWhile (fun c => !c.isWhitespace))

/-- Rust `str::parse::<u64>()`: optional leading `+`, then one or more decimal
digits, rejecting the empty string and values that overflow 64 bits. -/
def parseU64 (s : String) : Option Nat :=
  let cs := match s.toList with
    | '+' :: rest => rest
    | cs => cs
  if cs.isEmpty then none
  else if cs.all Char.isDigit then
    let n := cs.foldl (fun a c => a * 10 + (c.toNat - 48)) 0
    if n < 2 ^ 64 then some n else none
  else none

/-- `u64::from_le_bytes`: little-endian value of a byte list (first byte least
significant). -/
def u64FromLeBytes (bs : List Nat) : Nat :=
  bs.foldr (fun b acc => b + 256 * acc) 0

/-- `chrono::DateTime::from_timestamp(t, 0)`: `some t` when the epoch-seconds
value is representable, `none` outside chrono's validity range.  (No claim
depends on the exact bounds, only on totality of the fallback.) -/
def chronoFromTimestamp (t : Int) : Option Int :=
  if t < -8334601228800 ∨ 8210266876799 < t then none else some t

/-- `solana_sdk::pubkey::Pubkey::from_str`: at most 44 base58 characters whose
decoding is exactly 32 bytes.  The key is represented by its display string,
so a successful parse returns the string itself. -/
def pubkeyFromStr (s : String) : Option String :=
  if s.length > 44 then none
  else
    match bs58decode s with
    | some bytes => if bytes.length = 32 then some s else none
    | none => none

/-- `Pubkey::default().to_string()`: the base58 form of 32 zero bytes. -/
def defaultPubkey : String := "11111111111111111111111111111111"

/-! ## Data model (`src/solana/types.rs`) -/

/-- `types.rs`: `enum TransactionStatus`. -/
inductive TransactionStatus where
  | success
  | failed (msg : String)
deriving DecidableEq, Repr

/-- `types.rs`: `struct AccountMeta`. -/
structure AccountMeta where
  pubkey : String
  is_signer : Bool
  is_writable : Bool
  pre_balance : Option Nat
  post_balance : Option Nat
  account_type : Option String
deriving DecidableEq, Repr

/-- `types.rs`: `struct InstructionInfo`. -/
structure InstructionInfo where
  program_id : String
  program_name : Option String
  instruction_type : String
  data : String
  accounts : List AccountMeta
  compute_units_consumed : Option Nat
deriving DecidableEq, Repr

/-- `types.rs`: `struct TokenTransfer` (`from_`/`to_` render Rust's `from`/`to`
fields, which are Lean keywords). -/
structure TokenTransfer where
  from_ : String
  to_ : String
  mint : String
  amount : Nat
  decimals : Nat
  token_name : Option String
  program : String
deriving DecidableEq, Repr

/-- `types.rs`: `struct SolTransfer` (`from_`/`to_` render Rust's fields). -/
structure SolTransfer where
  from_ : String
  to_ : String
  amount : Nat
deriving DecidableEq, Repr

/-- `types.rs`: `struct TransactionData` (the assembled result). -/
structure TransactionData where
  signature : String
  slot : Nat
  block_time : Option Int
  fee : Nat
  status : TransactionStatus
  instructions : List InstructionInfo
  accounts : List AccountMeta
  logs : List String
  compute_units_consumed : Option Nat
  version : Option String
  token_transfers : List TokenTransfer
  sol_transfers : List SolTransfer
  priority_fee : Option Nat
  max_compute_units : Option Nat
deriving DecidableEq, Repr

/-! ## Upstream RPC types (`solana_transaction_status`), as consumed by `client.rs` -/

/-- `solana_sdk` `MessageHeader` as exposed in `UiRawMessage.header`. -/
structure MessageHeader where
  num_required_signatures : Nat
  num_readonly_signed_accounts : Nat
  num_readonly_unsigned_accounts : Nat
deriving DecidableEq, Repr

/-- `UiCompiledInstruction`: indices into the top-level account list plus a
base58 data string. -/
structure UiCompiledInstruction where
  program_id_index : Nat
  accounts : List Nat
  data : String
deriving DecidableEq, Repr

/-- `serde_json::Value`, restricted to what the pipeline inspects. -/
inductive Json where
  | null
  | bool (b : Bool)
  | num (n : Int)
  | str (s : String)
  | arr (xs : List Json)
  | obj (fields : List (String × Json))

mutual

/-- `serde_json::Value::to_string()` (compact serialization; string escaping is
omitted, no claim depends on it). -/
def jsonToString : Json → String
  | .null => "null"
  | .bool true => "true"
  | .bool false => "false"
  | .num n => toString n
  | .str s => "\"" ++ s ++ "\""
  | .arr xs => "[" ++ jsonArrToString xs ++ "]"
  | .obj fs => "\x7b" ++ jsonObjToString fs ++ "\x7d"

/-- Comma-separated serialization of a JSON array's elements. -/
def jsonArrToString : List Json → String
  | [] => ""
  | [x] => jsonToString x
  | x :: y :: xs => jsonToString x ++ "," ++ jsonArrToString (y :: xs)

/-- Comma-separated serialization of a JSON object's fields. -/
def jsonObjToString : List (String × Json) → String
  | [] => ""
  | [(k, v)] => "\"" ++ k ++ "\":" ++ jsonToString v
  | (k, v) :: f :: fs => "\"" ++ k ++ "\":" ++ jsonToString v ++ "," ++ jsonObjToString (f :: fs)

end

/-- `serde_json::Value::get(key)`: field lookup on an object, `none` otherwise. -/
def jsonGet (j : Json) (key : String) : Option Json :=
  match j with
  | .obj fields => (fields.find? (fun f => f.1 == key)).map (fun f => f.2)
  | _ => none

/-- `serde_json::Value::as_str()`. -/
def jsonAsStr (j : Json) : Option String :=
  match j with
  | .str s => some s
  | _ => none

/-- `ParsedInstruction`: a program id plus the parsed JSON payload. -/
structure ParsedInstructionJson where
  program_id : String
  parsed : Json

/-- `UiPartiallyDecodedInstruction`. -/
structure UiPartiallyDecodedInstruction where
  program_id : String
  accounts : List String
  data : String

/-- `UiParsedInstruction`. -/
inductive UiParsedInstruction where
  | parsed (p : ParsedInstructionJson)
  | partiallyDecoded (p : UiPartiallyDecodedInstruction)

/-- `UiInstruction`. -/
inductive UiInstruction where
  | compiled (c : UiCompiledInstruction)
  | parsed (p : UiParsedInstruction)

/-- `ParsedAccount` as it appears in `UiParsedMessage.account_keys`. -/
structure UiParsedAccount where
  pubkey : String
  signer : Bool
  writable : Bool

/-- `UiRawMessage` (compiled form): header, key strings, compiled instructions. -/
structure UiRawMessage where
  header : MessageHeader
  account_keys : List String
  instructions : List UiCompiledInstruction

/-- `UiParsedMessage` (JSON-parsed form). -/
structure UiParsedMessage where
  account_keys : List UiParsedAccount
  instructions : List UiInstruction

/-- `UiMessage`. -/
inductive UiMessage where
  | raw (m : UiRawMessage)
  | parsed (m : UiParsedMessage)

/-- `EncodedTransaction`: either a JSON transaction with a message, or one of
the other encodings the pipeline treats as empty (`_ => Vec::new()`). -/
inductive EncodedTransaction where
  | json (message : UiMessage)
  | other

/-- `solana_transaction_status::TransactionVersion`. -/
inductive TransactionVersion where
  | legacy
  | number (n : Nat)

/-- Rust `format!("\x7b:?\x7d", v)` on `TransactionVersion`. -/
def formatVersion : TransactionVersion → String
  | .legacy => "Legacy"
  | .number n => "Number(" ++ toString n ++ ")"

/-- `option_serializer::OptionSerializer`. -/
inductive OptionSerializer (α : Type) where
  | some (a : α)
  | none
  | skip

/-- `UiInnerInstructions`. -/
structure UiInnerInstructions where
  index : Nat
  instructions : List UiInstruction

/-- `UiTransactionStatusMeta`, restricted to the fields `client.rs` reads.
`err` is modelled by its already-formatted debug string. -/
structure UiTransactionStatusMeta where
  err : Option String
  fee : Nat
  pre_balances : List Nat
  post_balances : List Nat
  inner_instructions : OptionSerializer (List UiInnerInstructions)
  log_messages : OptionSerializer (List String)
  compute_units_consumed : OptionSerializer Nat

/-- `EncodedTransactionWithStatusMeta`. -/
structure EncodedTransactionWithStatusMeta where
  transaction : EncodedTransaction
  meta : Option UiTransactionStatusMeta
  version : Option TransactionVersion

/-- `EncodedConfirmedTransactionWithStatusMeta`. -/
structure EncodedConfirmedTransactionWithStatusMeta where
  slot : Nat
  transaction : EncodedTransactionWithStatusMeta
  block_time : Option Int

/-! ## Program registry (`types.rs`: `get_program_name`) -/

/-- `types.rs` `KNOWN_PROGRAMS`, copied verbatim — including the leading space
in the Compute Budget entry, which is present in the source. -/
def KNOWN_PROGRAMS : List (String × String) := [
  ("11111111111111111111111111111111", "System Program"),
  ("TokenkegQfeZyiNwAJbNbGKPFXCWuBvf9Ss623VQ5DA", "Token Program"),
  ("TokenzQdBNbLqP5VEhdkAS6EPFLC1PHnBqCQbphWkTg", "Token-2022 Program"),
  ("ATokenGPvbdGVxr1b2hvZbsiqW5xWH25efTNsLJA8knL", "Associated Token Account"),
  (" ComputeBudget111111111111111111111111111111", "Compute Budget"),
  ("Config1111111111111111111111111111111111111", "Config Program"),
  ("Stake11111111111111111111111111111111111111", "Stake Program"),
  ("Vote111111111111111111111111111111111111111", "Vote Program"),
  ("AddressLookupTab1e1111111111111111111111111", "Address Lookup Table"),
  ("BPFLoaderUpgradeab1e11111111111111111111111", "BPF Loader Upgradeable"),
  ("BPFLoader2111111111111111111111111111111111", "BPF Loader"),
  ("BPFLoader1111111111111111111111111111111111", "BPF Loader (Legacy)"),
  ("Ed25519SigVerify111111111111111111111111111", "Ed25519 SigVerify"),
  ("KeccakSecp256k11111111111111111111111111111", "Secp256k1 Program")]

/-- `types.rs`: `get_program_name` — first table entry whose address equals the
key's display string. -/
def get_program_name (program_id : String) : Option String :=
  (KNOWN_PROGRAMS.find? (fun entry => entry.1 == program_id)).map (fun entry => entry.2)

/-- The canonical on-chain Compute Budget program address (no leading space). -/
def computeBudgetProgramId : String := "ComputeBudget111111111111111111111111111111"

/-! ## Opcode classification (`client.rs`: `identify_instruction_type`) -/

/-- `client.rs`: `identify_instruction_type` — decode the base58 payload and
match the first byte against the identified program's opcode table. -/
def identify_instruction_type (program_id : String) (data : String) : String :=
  match get_program_name program_id with
  | some "System Program" =>
    match bs58decode data with
    | some decoded =>
      match decoded with
      | [] => "Unknown"
      | b :: _ =>
        match b with
        | 0 => "CreateAccount"
        | 1 => "Assign"
        | 2 => "Transfer"
        | 3 => "CreateAccountWithSeed"
        | 4 => "AdvanceNonceAccount"
        | 5 => "WithdrawNonceAccount"
        | 6 => "InitializeNonceAccount"
        | 7 => "AuthorizeNonceAccount"
        | 8 => "Allocate"
        | 9 => "AllocateWithSeed"
        | 10 => "AssignWithSeed"
        | 11 => "TransferWithSeed"
        | 12 => "UpgradeNonceAccount"
        | _ => "Unknown"
    | none => "Unknown"
  | some "Token Program" | some "Token-2022 Program" =>
    match bs58decode data with
    | some decoded =>
      match decoded with
      | [] => "Unknown"
      | b :: _ =>
        match b with
        | 0 => "InitializeMint"
        | 1 => "InitializeAccount"
        | 2 => "InitializeMultisig"
        | 3 => "Transfer"
        | 4 => "Approve"
        | 5 => "Revoke"
        | 6 => "SetAuthority"
        | 7 => "MintTo"
        | 8 => "Burn"
        | 9 => "CloseAccount"
        | 10 => "FreezeAccount"
        | 11 => "ThawAccount"
        | 12 => "TransferChecked"
        | 13 => "ApproveChecked"
        | 14 => "MintToChecked"
        | 15 => "BurnChecked"
        | 16 => "InitializeAccount2"
        | 17 => "SyncNative"
        | 18 => "InitializeAccount3"
        | 19 => "InitializeMultisig2"
        | 20 => "InitializeMint2"
        | _ => "Unknown"
    | none => "Unknown"
  | some "Compute Budget" =>
    match bs58decode data with
    | some decoded =>
      match decoded with
      | [] => "Unknown"
      | b :: _ =>
        match b with
        | 0 => "RequestUnits"
        | 1 => "RequestHeapFrame"
        | 2 => "SetComputeUnitLimit"
        | 3 => "SetComputeUnitPrice"
        | 4 => "SetLoadedAccountsDataSizeLimit"
        | _ => "Unknown"
    | none => "Unknown"
  | _ => "Unknown"

/-! ## Instruction normalization (`client.rs`) -/

/-- Rust `for` loop collecting `f x?` results: stops at the first error
(`parse_instructions` pushes `self.parse_raw_instruction(..)?`). -/
def mapExcept (f : α → Except ε β) : List α → Except ε (List β)
  | [] => .ok []
  | x :: xs =>
    match f x with
    | .error e => .error e
    | .ok y =>
      match mapExcept f xs with
      | .error e => .error e
      | .ok ys => .ok (y :: ys)

/-- `client.rs`: `parse_raw_instruction` — fails when `program_id_index` is out
of range; in-range entries of the instruction's own account-index list are
resolved, out-of-range ones silently dropped; the data string is annotated
with the decoded byte count when base58 decoding succeeds non-emptily. -/
def parse_raw_instruction (ui_instr : UiCompiledInstruction) (account_keys : List String) :
    Except String InstructionInfo :=
  match account_keys.get? ui_instr.program_id_index with
  | .none => .error "Invalid program_id_index"
  | .some program_id =>
    let program_name := get_program_name program_id
    let instruction_type := identify_instruction_type program_id ui_instr.data
    let accounts : List AccountMeta := ui_instr.accounts.filterMap (fun acc_idx =>
      (account_keys.get? acc_idx).map (fun pubkey =>
        { pubkey := pubkey
          is_signer := false    -- "Will be set based on transaction header"
          is_writable := false  -- "Will be set based on transaction header"
          pre_balance := .none
          post_balance := .none
          account_type := .none }))
    let data_str :=
      match bs58decode ui_instr.data with
      | .some decoded =>
        if decoded.length ≥ 1 then
          ui_instr.data ++ " (" ++ toString decoded.length ++ " bytes)"
        else
          ui_instr.data
      | .none => ui_instr.data
    .ok
      { program_id := program_id
        program_name := program_name
        instruction_type := instruction_type
        data := data_str
        accounts := accounts
        compute_units_consumed := .none }

/-- `client.rs`: `parse_parsed_instruction` — for the `Parsed` variant, the
instruction type and data come from the JSON payload's `type`/`info` fields,
and accounts are the string-valued fields of `info` that parse as pubkeys,
with heuristic flags from the field names; for `PartiallyDecoded`, accounts
are the listed strings that parse as pubkeys.  (`serde_json::from_value::<Value>`
on a `Value` always succeeds, so the Rust `if let Ok` always takes the `Ok`
branch.) -/
def parse_parsed_instruction (ui_instr : UiParsedInstruction) : InstructionInfo :=
  match ui_instr with
  | .parsed parsed =>
    let program_id := (pubkeyFromStr parsed.program_id).getD defaultPubkey
    let program_name := get_program_name program_id
    let typeData : String × String :=
      match (jsonGet parsed.parsed "type").bind jsonAsStr with
      | .some instruction_type =>
        (instruction_type, ((jsonGet parsed.parsed "info").map jsonToString).getD "")
      | .none => ("Unknown", jsonToString parsed.parsed)
    let accounts : List AccountMeta :=
      match jsonGet parsed.parsed "info" with
      | .some (.obj fields) =>
        fields.filterMap (fun field =>
          match field.2 with
          | .str pubkey_str =>
            (pubkeyFromStr pubkey_str).map (fun pubkey =>
              { pubkey := pubkey
                is_signer := strContains field.1 "authority" || strContains field.1 "owner"
                is_writable := strContains field.1 "source" || strContains field.1 "destination"
                pre_balance := .none
                post_balance := .none
                account_type := .some field.1 })
          | _ => .none)
      | _ => []
    { program_id := program_id
      program_name := program_name
      instruction_type := typeData.1
      data := typeData.2
      accounts := accounts
      compute_units_consumed := .none }
  | .partiallyDecoded partial_ =>
    let program_id := (pubkeyFromStr partial_.program_id).getD defaultPubkey
    let program_name := get_program_name program_id
    let accounts : List AccountMeta := partial_.accounts.filterMap (fun acc_str =>
      (pubkeyFromStr acc_str).map (fun pubkey =>
        { pubkey := pubkey
          is_signer := false
          is_writable := false
          pre_balance := .none
          post_balance := .none
          account_type := .none }))
    { program_id := program_id
      program_name := program_name
      instruction_type := "PartiallyDecoded"
      data := partial_.data
      accounts := accounts
      compute_units_consumed := .none }

/-- Fallback `InstructionInfo` used when a compiled instruction inside a
parsed message fails to normalize (`unwrap_or_else` in `parse_instructions`). -/
def compiledFallback (compiled : UiCompiledInstruction) : InstructionInfo :=
  { program_id := defaultPubkey
    program_name := .none
    instruction_type := "Unknown (Compiled)"
    data := compiled.data
    accounts := []
    compute_units_consumed := .none }

/-- `client.rs`: `parse_instructions` — raw messages propagate
`parse_raw_instruction` failures via `?`; parsed messages never fail (compiled
fallbacks swallow errors); non-JSON encodings yield no instructions. -/
def parse_instructions (txn : EncodedConfirmedTransactionWithStatusMeta)
    (account_keys : List String) : Except String (List InstructionInfo) :=
  match txn.transaction.transaction with
  | .json (.raw raw_msg) =>
    mapExcept (fun ui_instr => parse_raw_instruction ui_instr account_keys) raw_msg.instructions
  | .json (.parsed parsed_msg) =>
    .ok (parsed_msg.instructions.map (fun ui_instr =>
      match ui_instr with
      | .parsed parsed => parse_parsed_instruction parsed
      | .compiled compiled =>
        match parse_raw_instruction compiled account_keys with
        | .ok info => info
        | .error _ => compiledFallback compiled))
  | .other => .ok []

/-- `client.rs`: `parse_inner_instructions` — best effort: compiled inner
instructions that fail to normalize are skipped.  (Its result is bound to `_inner_instructions` and
discarded by `parse_transaction`.) -/
def parse_inner_instructions (inner_instructions : Option (List UiInnerInstructions))
    (account_keys : List String) : List InstructionInfo :=
  match inner_instructions with
  | .none => []
  | .some inner_ixs =>
    inner_ixs.foldl (fun result inner =>
      inner.instructions.foldl (fun result ui_instr =>
        match ui_instr with
        | .compiled compiled =>
          match parse_raw_instruction compiled account_keys with
          | .ok instruction => result ++ [instruction]
          | .error _ => result
        | .parsed parsed => result ++ [parse_parsed_instruction parsed]) result) []

/-! ## Transfer and fee extraction (`client.rs`) -/

/-- `client.rs`: `parse_transfer_log` — "Simplified parsing ... For now, return
a placeholder": always `none`. -/
def parse_transfer_log (_log : String) (_account_keys : List String) : Option TokenTransfer :=
  .none

/-- `client.rs`: `parse_token_transfer_event` — always `none`. -/
def parse_token_transfer_event (_log : String) (_account_keys : List String) :
    Option TokenTransfer :=
  .none

/-- `client.rs`: `parse_token_transfers_from_logs`. -/
def parse_token_transfers_from_logs (logs : Option (List String))
    (account_keys : List String) : List TokenTransfer :=
  match logs with
  | .none => []
  | .some log_messages =>
    log_messages.foldl (fun transfers log =>
      let transfers :=
        if strContains log "Transfer" && strContains log "amount:" then
          match parse_transfer_log log account_keys with
          | .some transfer => transfers ++ [transfer]
          | .none => transfers
        else transfers
      if strContains log "Token:Transfer" then
        match parse_token_transfer_event log account_keys with
        | .some transfer => transfers ++ [transfer]
        | .none => transfers
      else transfers) []

/-- Placeholder `AccountMeta` for total indexing (the Rust code indexes
`accounts[0]`/`accounts[1]` only under a `len() >= 2` guard). -/
def emptyAccountMeta : AccountMeta :=
  { pubkey := "", is_signer := false, is_writable := false
    pre_balance := .none, post_balance := .none, account_type := .none }

/-- One iteration of the `parse_sol_transfers` loop: a System-Program
`Transfer` instruction with at least two accounts and a first data token
base58-decoding to at least 12 bytes pushes a `SolTransfer` whose amount is
the little-endian `u64` at byte offset 4.  (The Token-Program branch of the
loop only carries a comment and pushes nothing.) -/
def solTransferStep (transfers : List SolTransfer) (instruction : InstructionInfo) :
    List SolTransfer :=
  let program_name := get_program_name instruction.program_id
  if program_name = some "System Program" ∧ instruction.instruction_type = "Transfer" then
    if instruction.accounts.length ≥ 2 then
      let from_ := (instruction.accounts.getD 0 emptyAccountMeta).pubkey
      let to_ := (instruction.accounts.getD 1 emptyAccountMeta).pubkey
      match bs58decode (firstToken instruction.data) with
      | .some decoded =>
        if decoded.length ≥ 12 then
          transfers ++ [{ from_ := from_, to_ := to_,
                          amount := u64FromLeBytes ((decoded.drop 4).take 8) }]
        else transfers
      | .none => transfers
    else transfers
  else transfers

/-- `client.rs`: `parse_sol_transfers` — the loop above over all normalized
instructions, starting from an empty vector. -/
def parse_sol_transfers (instructions : List InstructionInfo)
    (_account_keys : List String) : List SolTransfer :=
  instructions.foldl solTransferStep []

/-- `client.rs`: `calculate_priority_fee` — the last Compute-Budget
`SetComputeUnitPrice` instruction whose first data token decodes to at least
9 bytes sets the fee (little-endian `u64` at byte offset 1); a mutable
`Option` updated in a loop, so later matches overwrite earlier ones. -/
def calculate_priority_fee (instructions : List InstructionInfo) : Option Nat :=
  instructions.foldl (fun priority_fee instruction =>
    let program_name := get_program_name instruction.program_id
    if program_name = some "Compute Budget" then
      if instruction.instruction_type = "SetComputeUnitPrice" then
        match bs58decode (firstToken instruction.data) with
        | .some decoded =>
          if decoded.length ≥ 9 then
            some (u64FromLeBytes ((decoded.drop 1).take 8))
          else priority_fee
        | .none => priority_fee
      else priority_fee
    else priority_fee) .none

/-- `client.rs` `parse_transaction` lines 280–290: the first Compute-Budget
instruction whose type contains `"SetComputeUnitLimit"` and whose data string
parses as a decimal `u64` supplies `max_compute_units`. -/
def max_compute_units_of (instructions : List InstructionInfo) : Option Nat :=
  ((instructions.filter (fun i => get_program_name i.program_id == some "Compute Budget")).filterMap
    (fun i =>
      if strContains i.instruction_type "SetComputeUnitLimit" then
        parseU64 i.data
      else .none)).head?

/-! ## Top-level account resolution (`client.rs` `parse_transaction`, accounts) -/

/-- `client.rs` line 221: `num_required_signatures.saturating_sub(num_readonly_signed)`. -/
def numWritableSigned (header : MessageHeader) : Nat :=
  header.num_required_signatures - header.num_readonly_signed_accounts

/-- `client.rs` lines 223–226: `account_keys.len().saturating_sub(num_required_signatures)
.saturating_sub(num_readonly_unsigned)`. -/
def numWritableUnsigned (header : MessageHeader) (total : Nat) : Nat :=
  total - header.num_required_signatures - header.num_readonly_unsigned_accounts

/-- `client.rs` line 233: `idx < num_required_signatures`. -/
def isSignerIdx (header : MessageHeader) (idx : Nat) : Bool :=
  idx < header.num_required_signatures

/-- `client.rs` lines 234–236: the writable-signed or writable-unsigned range. -/
def isWritableIdx (header : MessageHeader) (total : Nat) (idx : Nat) : Bool :=
  (idx < numWritableSigned header) ||
    (idx ≥ header.num_required_signatures &&
      idx < header.num_required_signatures + numWritableUnsigned header total)

/-- The `AccountMeta` built for position `idx` of a raw message's key list. -/
def rawAccountMeta (header : MessageHeader) (total : Nat)
    (pre_balances post_balances : List Nat) (idx : Nat) (pubkey : String) : AccountMeta :=
  { pubkey := pubkey
    is_signer := isSignerIdx header idx
    is_writable := isWritableIdx header total idx
    pre_balance := pre_balances.get? idx
    post_balance := post_balances.get? idx
    account_type := .none }

/-- `enumerate().filter_map(..)` loop of the raw-message accounts extraction:
keys failing `Pubkey::from_str` are dropped, but positions keep their original
enumeration index for flags and balance lookups. -/
def resolveRawAccountsAux (header : MessageHeader) (total : Nat)
    (pre_balances post_balances : List Nat) : Nat → List String → List AccountMeta
  | _, [] => []
  | idx, key_str :: rest =>
    match pubkeyFromStr key_str with
    | .some pubkey =>
      rawAccountMeta header total pre_balances post_balances idx pubkey ::
        resolveRawAccountsAux header total pre_balances post_balances (idx + 1) rest
    | .none => resolveRawAccountsAux header total pre_balances post_balances (idx + 1) rest

/-- `client.rs` lines 213–250: top-level accounts of a raw (compiled) message,
with positional signer/writable flags derived from the header. -/
def resolveRawAccounts (header : MessageHeader) (account_keys : List String)
    (pre_balances post_balances : List Nat) : List AccountMeta :=
  resolveRawAccountsAux header account_keys.length pre_balances post_balances 0 account_keys

/-- `enumerate().filter_map(..)` loop of the parsed-message accounts extraction:
flags are taken from the parsed account record itself. -/
def resolveParsedAccountsAux (pre_balances post_balances : List Nat) :
    Nat → List UiParsedAccount → List AccountMeta
  | _, [] => []
  | idx, parsed_acc :: rest =>
    match pubkeyFromStr parsed_acc.pubkey with
    | .some pubkey =>
      { pubkey := pubkey
        is_signer := parsed_acc.signer
        is_writable := parsed_acc.writable
        pre_balance := pre_balances.get? idx
        post_balance := post_balances.get? idx
        account_type := .none } ::
        resolveParsedAccountsAux pre_balances post_balances (idx + 1) rest
    | .none => resolveParsedAccountsAux pre_balances post_balances (idx + 1) rest

/-- `client.rs` lines 251–273: top-level accounts of a parsed message. -/
def resolveParsedAccounts (account_keys : List UiParsedAccount)
    (pre_balances post_balances : List Nat) : List AccountMeta :=
  resolveParsedAccountsAux pre_balances post_balances 0 account_keys

/-! ## Transaction assembly (`client.rs`: `parse_transaction`) -/

/-- `OptionSerializer::Some(x) => Some(x), _ => None`. -/
def optSerToOption : OptionSerializer α → Option α
  | .some a => Option.some a
  | _ => Option.none

/-- The account-key strings used for index resolution (`client.rs` lines
168–184): keys failing `Pubkey::from_str` are silently dropped. -/
def extractAccountKeys (txn : EncodedConfirmedTransactionWithStatusMeta) : List String :=
  match txn.transaction.transaction with
  | .json (.raw raw_msg) => raw_msg.account_keys.filterMap pubkeyFromStr
  | .json (.parsed parsed_msg) =>
    parsed_msg.account_keys.filterMap (fun k => pubkeyFromStr k.pubkey)
  | .other => []

/-- `client.rs`: `parse_transaction` — fails when the record has no metadata
(`ok_or_else`) and when `parse_instructions` fails (`?`); all other missing
sub-fields degrade to `None`/empty/`"Unknown"` fallbacks. -/
def parse_transaction (txn : EncodedConfirmedTransactionWithStatusMeta)
    (signature : String) : Except String TransactionData :=
  match txn.transaction.meta with
  | .none => .error "No transaction metadata"
  | .some meta =>
    let block_time := txn.block_time.bind chronoFromTimestamp
    let status :=
      match meta.err with
      | .some err => TransactionStatus.failed err
      | .none => TransactionStatus.success
    let account_keys := extractAccountKeys txn
    match parse_instructions txn account_keys with
    | .error e => .error e
    | .ok instructions =>
      let _inner_instructions :=
        parse_inner_instructions (optSerToOption meta.inner_instructions) account_keys
      let token_transfers :=
        parse_token_transfers_from_logs (optSerToOption meta.log_messages) account_keys
      let sol_transfers := parse_sol_transfers instructions account_keys
      let priority_fee := calculate_priority_fee instructions
      let accounts :=
        match txn.transaction.transaction with
        | .json (.raw raw_msg) =>
          resolveRawAccounts raw_msg.header raw_msg.account_keys
            meta.pre_balances meta.post_balances
        | .json (.parsed parsed_msg) =>
          resolveParsedAccounts parsed_msg.account_keys meta.pre_balances meta.post_balances
        | .other => []
      let max_compute_units := max_compute_units_of instructions
      .ok
        { signature := signature
          slot := txn.slot
          block_time := block_time
          fee := meta.fee
          status := status
          instructions := instructions
          accounts := accounts
          logs := (optSerToOption meta.log_messages).getD []
          compute_units_consumed := optSerToOption meta.compute_units_consumed
          version := txn.transaction.version.map formatVersion
          token_transfers := token_transfers
          sol_transfers := sol_transfers
          priority_fee := priority_fee
          max_compute_units := max_compute_units }

/-! ## Specification-side definitions (for refinement-style claims) -/

/-- Specification wording of SOL-transfer extraction (claim C4): an
instruction contributes a `SolTransfer` precisely when it is a System-Program
`"Transfer"` with at least two resolved accounts whose base58 payload (the
first whitespace token of its data string) decodes to at least 12 bytes; the
record is `accounts[0] → accounts[1]` with the little-endian `u64` at byte
offset 4. -/
def solTransferSpec (i : InstructionInfo) : Option SolTransfer :=
  if get_program_name i.program_id = some "System Program" ∧
      i.instruction_type = "Transfer" ∧ i.accounts.length ≥ 2 then
    match bs58decode (firstToken i.data) with
    | .some decoded =>
      if decoded.length ≥ 12 then
        some { from_ := (i.accounts.getD 0 emptyAccountMeta).pubkey
               to_ := (i.accounts.getD 1 emptyAccountMeta).pubkey
               amount := u64FromLeBytes ((decoded.drop 4).take 8) }
      else none
    | .none => none
  else none

/-- Specification invariant of claim C9: every pubkey referenced by an
instruction-level `AccountMeta` occurs in the transaction's top-level account
list. -/
def instructionAccountsCovered (td : TransactionData) : Bool :=
  td.instructions.all (fun i => i.accounts.all (fun am =>
    td.accounts.any (fun top => top.pubkey == am.pubkey)))

/-! ## Concrete inputs used by counterexamples, bug demonstrations and witnesses -/

/-- The canonical Token Program address. -/
def tokenProgramId : String := "TokenkegQfeZyiNwAJbNbGKPFXCWuBvf9Ss623VQ5DA"

/-- A normalized Compute-Budget `SetComputeUnitPrice` instruction whose payload
`"3tGNFMqHiozw"` decodes to `[3, 232, 3, 0, 0, 0, 0, 0, 0]` (price 1000). -/
def cbPriceInstruction : InstructionInfo :=
  { program_id := computeBudgetProgramId
    program_name := .none
    instruction_type := "SetComputeUnitPrice"
    data := "3tGNFMqHiozw (9 bytes)"
    accounts := []
    compute_units_consumed := .none }

/-- A Compute-Budget `SetComputeUnitLimit` instruction whose data string is the
decimal `"200000"`. -/
def cbLimitInstruction : InstructionInfo :=
  { program_id := computeBudgetProgramId
    program_name := .none
    instruction_type := "SetComputeUnitLimit"
    data := "200000"
    accounts := []
    compute_units_consumed := .none }

/-- Execution metadata with every optional sub-field absent. -/
def minimalMeta : UiTransactionStatusMeta :=
  { err := .none
    fee := 5000
    pre_balances := []
    post_balances := []
    inner_instructions := .skip
    log_messages := .skip
    compute_units_consumed := .skip }

/-- A record that does carry execution metadata but whose compiled message has
an instruction with `program_id_index = 0` over an empty key list. -/
def c7Record : EncodedConfirmedTransactionWithStatusMeta :=
  { slot := 0
    transaction :=
      { transaction := .json (.raw
          { header := ⟨1, 0, 0⟩
            account_keys := []
            instructions := [⟨0, [], ""⟩] })
        meta := some minimalMeta
        version := .none }
    block_time := .none }

/-- A record with a JSON-parsed message whose partially-decoded instruction
references a valid pubkey that is absent from the top-level account list. -/
def c9Record : EncodedConfirmedTransactionWithStatusMeta :=
  { slot := 0
    transaction :=
      { transaction := .json (.parsed
          { account_keys := []
            instructions := [.parsed (.partiallyDecoded
              { program_id := defaultPubkey
                accounts := [tokenProgramId]
                data := "" })] })
        meta := some minimalMeta
        version := .none }
    block_time := .none }

/-! ## Claim C1 — opcode classification

The System and Token tables behave as described (tag 7 is `MintTo` under the
Token Program and `AuthorizeNonceAccount` under the System Program), but the
Compute-Budget table is unreachable: the registry entry for the Compute Budget
program carries a leading space, so the canonical address never identifies as
`"Compute Budget"` and its tags 0–4 all classify as `"Unknown"`. -/

/-- C1: tag byte 7 (payload `"8"`) classifies as claimed under the Token and
System programs, and `"3"` (tag byte 2) under the canonical Compute Budget
address — a valid pubkey — yields `"Unknown"` instead of
`"SetComputeUnitLimit"`, because the registry never identifies that address. -/
theorem c1_opcode_tables_concrete :
    identify_instruction_type tokenProgramId "8" = "MintTo" ∧
    identify_instruction_type defaultPubkey "8" = "AuthorizeNonceAccount" ∧
    (pubkeyFromStr computeBudgetProgramId).isSome = true ∧
    get_program_name computeBudgetProgramId = none ∧
    identify_instruction_type computeBudgetProgramId "3" = "Unknown" := by
  decide

/-! ## Claim C2 — program registry -/

/-- C2: the System, Token, Token-2022, Stake and Vote addresses resolve as
claimed, but the canonical Compute Budget address — a valid pubkey — resolves
to `none` because the table entry is misspelled with a leading space (an
address that no pubkey can ever display as). -/
theorem c2_registry_concrete :
    get_program_name defaultPubkey = some "System Program" ∧
    get_program_name tokenProgramId = some "Token Program" ∧
    get_program_name "TokenzQdBNbLqP5VEhdkAS6EPFLC1PHnBqCQbphWkTg" = some "Token-2022 Program" ∧
    get_program_name "Stake11111111111111111111111111111111111111" = some "Stake Program" ∧
    get_program_name "Vote111111111111111111111111111111111111111" = some "Vote Program" ∧
    (pubkeyFromStr computeBudgetProgramId).isSome = true ∧
    get_program_name computeBudgetProgramId = none ∧
    (pubkeyFromStr " ComputeBudget111111111111111111111111111111") = none := by
  decide

/-! ## Claim C3 — priority-fee extraction -/

/-- C3: a Compute-Budget `SetComputeUnitPrice` instruction whose payload
decodes to 9 bytes encoding price 1000 yields `none` (the claim requires
`some 1000`): `calculate_priority_fee` filters on
`get_program_name = some "Compute Budget"`, which no pubkey satisfies. -/
theorem c3_priority_fee_concrete :
    calculate_priority_fee [cbPriceInstruction] = none ∧
    bs58decode (firstToken cbPriceInstruction.data) = some [3, 232, 3, 0, 0, 0, 0, 0, 0] ∧
    u64FromLeBytes ((([3, 232, 3, 0, 0, 0, 0, 0, 0] : List Nat).drop 1).take 8) = 1000 ∧
    get_program_name cbPriceInstruction.program_id = none := by
  decide

/-! ## Claim C8 — max compute units -/

/-- C8: a Compute-Budget `SetComputeUnitLimit` instruction whose data parses as
the decimal 200000 yields `none` (the claim requires `some 200000`), again
because no pubkey resolves to `"Compute Budget"` in the registry. -/
theorem c8_max_compute_units_concrete :
    max_compute_units_of [cbLimitInstruction] = none ∧
    parseU64 cbLimitInstruction.data = some 200000 ∧
    get_program_name cbLimitInstruction.program_id = none := by
  decide

/-! ## Claim C4 — SOL-transfer extraction -/

/-- The loop body pushes exactly the transfer described by `solTransferSpec`. -/
theorem solTransferStep_eq (acc : List SolTransfer) (i : InstructionInfo) :
    solTransferStep acc i =
      match solTransferSpec i with
      | some t => acc ++ [t]
      | none => acc := by
  unfold solTransferStep solTransferSpec
  by_cases h12 : get_program_name i.program_id = some "System Program" ∧
      i.instruction_type = "Transfer"
  · by_cases h3 : i.accounts.length ≥ 2
    · rw [if_pos h12, if_pos h3, if_pos ⟨h12.1, h12.2, h3⟩]
      cases hd : bs58decode (firstToken i.data) with
      | none => rfl
      | some decoded =>
        by_cases hl : decoded.length ≥ 12 <;> simp [hl]
    · rw [if_pos h12, if_neg h3, if_neg (fun h => h3 h.2.2)]
  · rw [if_neg h12, if_neg (fun h => h12 ⟨h.1, h.2.1⟩)]

/-- Folding a push-style step starting from `acc` appends the `filterMap` of
the per-element extraction. -/
theorem foldl_solTransferStep (l : List InstructionInfo) :
    ∀ acc : List SolTransfer, l.foldl solTransferStep acc = acc ++ l.filterMap solTransferSpec := by
  induction l with
  | nil => intro acc; simp
  | cons x xs ih =>
    intro acc
    rw [List.foldl_cons, ih, solTransferStep_eq]
    cases h : solTransferSpec x <;> simp [List.filterMap_cons, h]

/-- C4: SOL-transfer extraction emits exactly one `SolTransfer` per
System-Program `"Transfer"` instruction with at least two resolved accounts
whose payload decodes to at least 12 bytes — with `from = accounts[0]`,
`to = accounts[1]` and the little-endian 64-bit amount at byte offset 4 — and
nothing (no zero-amount default) for every other instruction. -/
theorem c4_sol_transfers_characterization (instructions : List InstructionInfo)
    (account_keys : List String) :
    parse_sol_transfers instructions account_keys = instructions.filterMap solTransferSpec := by
  unfold parse_sol_transfers
  rw [foldl_solTransferStep]
  simp

/-! ## Claim C5 — positional signer/writable resolution -/

/-- A valid key at offset `idx` of the remaining list contributes the meta
built for enumeration index `start + idx`. -/
theorem resolveRawAccountsAux_mem (header : MessageHeader) (total : Nat)
    (pre_balances post_balances : List Nat) :
    ∀ (keys : List String) (start idx : Nat) (pubkey : String), idx < keys.length →
      pubkeyFromStr (keys.getD idx "") = some pubkey →
      rawAccountMeta header total pre_balances post_balances (start + idx) pubkey ∈
        resolveRawAccountsAux header total pre_balances post_balances start keys := by
  intro keys
  induction keys with
  | nil => intro start idx pubkey h; simp at h
  | cons key rest ih =>
    intro start idx pubkey hlt hparse
    cases idx with
    | zero =>
      simp only [List.getD_cons_zero] at hparse
      simp only [resolveRawAccountsAux, hparse, Nat.add_zero]
      exact List.mem_cons_self _ _
    | succ i =>
      simp only [List.getD_cons_succ] at hparse
      have hlt' : i < rest.length := by simpa [Nat.succ_lt_succ_iff] using hlt
      have hmem := ih (start + 1) i pubkey hlt' hparse
      have harith : start + 1 + i = start + (i + 1) := by omega
      rw [harith] at hmem
      simp only [resolveRawAccountsAux]
      cases hk : pubkeyFromStr key with
      | none => simpa [hk] using hmem
      | some pk => simp only [hk]; exact List.mem_cons_of_mem _ hmem

/-- C5: for every header triple and any account-list length, the resolver
marks enumeration index `i` as signer iff `i < num_required_signatures` and
writable iff `i` lies in the writable-signed or writable-unsigned positional
range, where the range bounds are computed with saturating (clamp-to-zero)
subtraction — these parts hold unconditionally, malformed headers included;
when the header counts are additionally consistent with the list length,
`writable_signed + readonly_signed = num_required_signatures` and the four
positional ranges coincide with the four flag combinations, partitioning the
index range with no gaps and no overlaps. -/
theorem c5_positional_flags (header : MessageHeader) (account_keys : List String)
    (pre_balances post_balances : List Nat) :
    (∀ idx pubkey, idx < account_keys.length →
      pubkeyFromStr (account_keys.getD idx "") = some pubkey →
      rawAccountMeta header account_keys.length pre_balances post_balances idx pubkey ∈
        resolveRawAccounts header account_keys pre_balances post_balances)
    ∧ (∀ idx, isSignerIdx header idx = true ↔ idx < header.num_required_signatures)
    ∧ (∀ idx, isWritableIdx header account_keys.length idx = true ↔
        (idx < header.num_required_signatures - header.num_readonly_signed_accounts ∨
          (header.num_required_signatures ≤ idx ∧
            idx < header.num_required_signatures +
              (account_keys.length - header.num_required_signatures -
                header.num_readonly_unsigned_accounts))))
    ∧ (header.num_readonly_signed_accounts ≤ header.num_required_signatures →
        numWritableSigned header + header.num_readonly_signed_accounts =
          header.num_required_signatures)
    ∧ (header.num_readonly_signed_accounts ≤ header.num_required_signatures →
        header.num_required_signatures + header.num_readonly_unsigned_accounts ≤
          account_keys.length →
        ∀ idx, idx < account_keys.length →
        ((isSignerIdx header idx = true ∧ isWritableIdx header account_keys.length idx = true) ↔
          idx < numWritableSigned header)
        ∧ ((isSignerIdx header idx = true ∧ isWritableIdx header account_keys.length idx = false) ↔
          (numWritableSigned header ≤ idx ∧ idx < header.num_required_signatures))
        ∧ ((isSignerIdx header idx = false ∧ isWritableIdx header account_keys.length idx = true) ↔
          (header.num_required_signatures ≤ idx ∧
            idx < header.num_required_signatures +
              numWritableUnsigned header account_keys.length))
        ∧ ((isSignerIdx header idx = false ∧ isWritableIdx header account_keys.length idx = false) ↔
          header.num_required_signatures + numWritableUnsigned header account_keys.length ≤ idx)) := by
  refine ⟨?_, ?_, ?_, ?_, ?_⟩
  · intro idx pubkey hlt hparse
    simpa using resolveRawAccountsAux_mem header account_keys.length pre_balances post_balances
      account_keys 0 idx pubkey hlt hparse
  · intro idx
    simp [isSignerIdx]
  · intro idx
    simp only [isWritableIdx, numWritableSigned, numWritableUnsigned, Bool.or_eq_true,
      Bool.and_eq_true, decide_eq_true_eq, ge_iff_le]
  · intro hs
    simp only [numWritableSigned]; omega
  · intro hs hu idx hlt
    simp only [isSignerIdx, isWritableIdx, numWritableSigned, numWritableUnsigned,
      Bool.or_eq_true, Bool.and_eq_true, decide_eq_true_eq, Bool.or_eq_false_iff,
      Bool.and_eq_false_iff, decide_eq_false_iff_not, ge_iff_le, not_le, not_lt]
    constructor
    · constructor <;> intro h <;> omega
    constructor
    · constructor <;> intro h <;> omega
    constructor
    · constructor <;> intro h <;> omega
    · constructor <;> intro h <;> omega

/-- Witness: header `(2, 1, 1)` over four copies of the all-ones key — the
writable-signed count plus the readonly-signed count is 2, and index 0's meta
(signer, writable) is produced by the resolver; and for the malformed header
`(1, 3, 9)` over two keys (both counts exceeding what the list supports, so
every subtraction clamps to zero) the writable rule still characterizes
index 0 with the saturating bounds. -/
theorem c5_positional_flags_witness :
    (numWritableSigned ⟨2, 1, 1⟩ + 1 = 2 ∧
      rawAccountMeta ⟨2, 1, 1⟩ 4 [] [] 0 defaultPubkey ∈
        resolveRawAccounts ⟨2, 1, 1⟩
          [defaultPubkey, defaultPubkey, defaultPubkey, defaultPubkey] [] []) ∧
    (isWritableIdx ⟨1, 3, 9⟩ 2 0 = true ↔
      (0 < 1 - 3 ∨ (1 ≤ 0 ∧ 0 < 1 + (2 - 1 - 9)))) := by
  have h := c5_positional_flags ⟨2, 1, 1⟩
    [defaultPubkey, defaultPubkey, defaultPubkey, defaultPubkey] [] []
  have h' := c5_positional_flags ⟨1, 3, 9⟩ [defaultPubkey, defaultPubkey] [] []
  exact ⟨⟨h.2.2.2.1 (by decide), h.1 0 defaultPubkey (by decide) (by decide)⟩,
    h'.2.2.1 0⟩

/-! ## Claim C6 — hard vs soft index failures -/

/-- If any element of the list fails, the whole `mapExcept` fails. -/
theorem mapExcept_error_of_mem {α ε β : Type} (f : α → Except ε β) :
    ∀ (l : List α) (x : α), x ∈ l → (∃ e, f x = .error e) →
      ∃ e, mapExcept f l = .error e := by
  intro l
  induction l with
  | nil => intro x hx; simp at hx
  | cons y ys ih =>
    intro x hx hfx
    simp only [mapExcept]
    cases hy : f y with
    | error e => exact ⟨e, rfl⟩
    | ok v =>
      rcases List.mem_cons.mp hx with rfl | hx'
      · obtain ⟨e, he⟩ := hfx
        rw [hy] at he
        exact absurd he (by simp)
      · obtain ⟨e, he⟩ := ih x hx' hfx
        rw [he]
        exact ⟨e, rfl⟩

/-- Account list of a normalized compiled instruction: in-range indices are
resolved into metas in order, out-of-range indices are dropped. -/
theorem filterMap_accounts_pubkeys (account_keys : List String) :
    ∀ idxs : List Nat,
      ((idxs.filterMap (fun acc_idx => (account_keys.get? acc_idx).map (fun pubkey =>
          ({ pubkey := pubkey, is_signer := false, is_writable := false,
             pre_balance := .none, post_balance := .none,
             account_type := .none } : AccountMeta)))).map AccountMeta.pubkey) =
        (idxs.filter (fun idx => idx < account_keys.length)).map
          (fun idx => account_keys.getD idx "") := by
  intro idxs
  induction idxs with
  | nil => rfl
  | cons idx rest ih =>
    simp only [List.get?_eq_getElem?, List.getD_eq_getElem?_getD] at ih
    cases hk : account_keys.get? idx with
    | none =>
      have hge : ¬ idx < account_keys.length := not_lt.mpr (List.get?_eq_none.mp hk)
      rw [List.get?_eq_getElem?] at hk
      simp [List.filterMap_cons, List.filter_cons, hk, hge, List.getD_eq_getElem?_getD, ih]
    | some pubkey =>
      have hlt : idx < account_keys.length := by
        rcases List.get?_eq_some.mp hk with ⟨h, _⟩
        exact h
      have hget : account_keys.getD idx "" = pubkey := by
        rw [List.getD_eq_getElem?_getD, ← List.get?_eq_getElem?, hk]
        rfl
      rw [List.get?_eq_getElem?] at hk
      simp [List.filterMap_cons, List.filter_cons, hk, hlt, hget,
        List.getD_eq_getElem?_getD, ih]

/-- Case analysis of `parse_raw_instruction` on the range of
`program_id_index` (shared helper: out-of-range is a propagated hard error,
in-range always succeeds with the out-of-range account indices dropped). -/
theorem parse_raw_index_cases (ui_instr : UiCompiledInstruction)
    (account_keys : List String) (instrs : List UiCompiledInstruction) :
    (account_keys.length ≤ ui_instr.program_id_index →
      parse_raw_instruction ui_instr account_keys = .error "Invalid program_id_index" ∧
      (ui_instr ∈ instrs →
        ∃ e, mapExcept (fun i => parse_raw_instruction i account_keys) instrs = .error e))
    ∧ (ui_instr.program_id_index < account_keys.length →
      ∃ info, parse_raw_instruction ui_instr account_keys = .ok info ∧
        info.accounts.map AccountMeta.pubkey =
          (ui_instr.accounts.filter (fun idx => idx < account_keys.length)).map
            (fun idx => account_keys.getD idx "")) := by
  constructor
  · intro hge
    have herr : parse_raw_instruction ui_instr account_keys = .error "Invalid program_id_index" := by
      unfold parse_raw_instruction
      rw [List.get?_eq_none.mpr hge]
    exact ⟨herr, fun hmem =>
      mapExcept_error_of_mem _ instrs ui_instr hmem ⟨"Invalid program_id_index", herr⟩⟩
  · intro hlt
    cases hk : account_keys.get? ui_instr.program_id_index with
    | none => exact absurd hlt (not_lt.mpr (List.get?_eq_none.mp hk))
    | some program_id =>
      have hok : parse_raw_instruction ui_instr account_keys = .ok
          { program_id := program_id
            program_name := get_program_name program_id
            instruction_type := identify_instruction_type program_id ui_instr.data
            data :=
              match bs58decode ui_instr.data with
              | .some decoded =>
                if decoded.length ≥ 1 then
                  ui_instr.data ++ " (" ++ toString decoded.length ++ " bytes)"
                else ui_instr.data
              | .none => ui_instr.data
            accounts := ui_instr.accounts.filterMap (fun acc_idx =>
              (account_keys.get? acc_idx).map (fun pubkey =>
                { pubkey := pubkey, is_signer := false, is_writable := false,
                  pre_balance := .none, post_balance := .none, account_type := .none }))
            compute_units_consumed := .none } := by
        unfold parse_raw_instruction
        rw [hk]
      exact ⟨_, hok, filterMap_accounts_pubkeys account_keys ui_instr.accounts⟩

/-- C6: an out-of-range `program_id_index` makes `parse_raw_instruction` fail
with a decode error that `parse_instructions` propagates to the caller,
whereas an in-range `program_id_index` always normalizes successfully, with
the out-of-range entries of the instruction's own account-index list silently
dropped (the resolved pubkeys are exactly the in-range indices' keys, in
order). -/
theorem c6_index_error_handling (ui_instr : UiCompiledInstruction)
    (account_keys : List String) (instrs : List UiCompiledInstruction) :
    (account_keys.length ≤ ui_instr.program_id_index →
      parse_raw_instruction ui_instr account_keys = .error "Invalid program_id_index" ∧
      (ui_instr ∈ instrs →
        ∃ e, mapExcept (fun i => parse_raw_instruction i account_keys) instrs = .error e))
    ∧ (ui_instr.program_id_index < account_keys.length →
      ∃ info, parse_raw_instruction ui_instr account_keys = .ok info ∧
        info.accounts.map AccountMeta.pubkey =
          (ui_instr.accounts.filter (fun idx => idx < account_keys.length)).map
            (fun idx => account_keys.getD idx "")) :=
  parse_raw_index_cases ui_instr account_keys instrs

/-- Witness for C6: `program_id_index = 5` over a single-key list is a hard
decode failure. -/
theorem c6_index_error_handling_witness :
    parse_raw_instruction ⟨5, [0, 3], "8"⟩ [defaultPubkey] =
      .error "Invalid program_id_index" :=
  ((c6_index_error_handling ⟨5, [0, 3], "8"⟩ [defaultPubkey] []).1 (by decide)).1

/-! ## Claim C10 — instruction-level account metas carry no header data -/

/-- C10: every account meta of a successfully normalized compiled instruction
has `is_signer = false`, `is_writable = false` and no balance bindings: the
header-derived flags and the balance columns are only ever attached to the
top-level account list. -/
theorem c10_instruction_account_flags (ui_instr : UiCompiledInstruction)
    (account_keys : List String) (info : InstructionInfo)
    (h : parse_raw_instruction ui_instr account_keys = .ok info) :
    ∀ meta ∈ info.accounts, meta.is_signer = false ∧ meta.is_writable = false ∧
      meta.pre_balance = none ∧ meta.post_balance = none := by
  intro meta hmem
  unfold parse_raw_instruction at h
  cases hk : account_keys.get? ui_instr.program_id_index with
  | none => rw [hk] at h; exact Except.noConfusion h
  | some program_id =>
    rw [hk] at h
    simp only [Except.ok.injEq] at h
    subst h
    simp only [List.mem_filterMap] at hmem
    obtain ⟨idx, _, hsome⟩ := hmem
    cases hg : account_keys.get? idx with
    | none => rw [hg] at hsome; exact Option.noConfusion hsome
    | some pk =>
      rw [hg] at hsome
      simp only [Option.map, Option.some.injEq] at hsome
      subst hsome
      exact ⟨rfl, rfl, rfl, rfl⟩

/-- Input and expected output for the C10 witness. -/
def c10Info : InstructionInfo :=
  { program_id := defaultPubkey
    program_name := some "System Program"
    instruction_type := "AuthorizeNonceAccount"
    data := "8 (1 bytes)"
    accounts := [{ pubkey := defaultPubkey, is_signer := false, is_writable := false,
                   pre_balance := .none, post_balance := .none, account_type := .none }]
    compute_units_consumed := .none }

/-- Witness for C10: a concrete normalized instruction's sole account meta has
cleared flags and no balances. -/
theorem c10_instruction_account_flags_witness :
    ({ pubkey := defaultPubkey, is_signer := false, is_writable := false,
       pre_balance := .none, post_balance := .none,
       account_type := .none } : AccountMeta).is_signer = false ∧
    ({ pubkey := defaultPubkey, is_signer := false, is_writable := false,
       pre_balance := .none, post_balance := .none,
       account_type := .none } : AccountMeta).is_writable = false ∧
    ({ pubkey := defaultPubkey, is_signer := false, is_writable := false,
       pre_balance := .none, post_balance := .none,
       account_type := .none } : AccountMeta).pre_balance = none ∧
    ({ pubkey := defaultPubkey, is_signer := false, is_writable := false,
       pre_balance := .none, post_balance := .none,
       account_type := .none } : AccountMeta).post_balance = none :=
  c10_instruction_account_flags ⟨0, [0], "8"⟩ [defaultPubkey] c10Info rfl
    _ (by simp [c10Info])

/-! ## Claim C7 — when does assembly fail? -/

/-- `mapExcept` fails exactly when some element fails. -/
theorem mapExcept_error_exists {α ε β : Type} (f : α → Except ε β) :
    ∀ l : List α, (∃ e, mapExcept f l = .error e) ↔ ∃ x ∈ l, ∃ e, f x = .error e := by
  intro l
  induction l with
  | nil =>
    constructor
    · rintro ⟨e, he⟩; exact Except.noConfusion he
    · rintro ⟨x, hx, _⟩; exact absurd hx (List.not_mem_nil x)
  | cons x xs ih =>
    constructor
    · rintro ⟨e, he⟩
      simp only [mapExcept] at he
      cases hx : f x with
      | error e' => exact ⟨x, List.mem_cons_self x xs, e', hx⟩
      | ok y =>
        simp only [hx] at he
        cases hxs : mapExcept f xs with
        | error e'' =>
          obtain ⟨z, hz, hze⟩ := ih.mp ⟨e'', hxs⟩
          exact ⟨z, List.mem_cons_of_mem x hz, hze⟩
        | ok ys =>
          simp only [hxs] at he
          exact Except.noConfusion he
    · rintro ⟨z, hz, e, hze⟩
      rcases List.mem_cons.mp hz with rfl | hz'
      · exact ⟨e, by simp only [mapExcept, hze]⟩
      · obtain ⟨e', he'⟩ := ih.mpr ⟨z, hz', e, hze⟩
        simp only [mapExcept, he']
        cases hx : f x with
        | error e'' => exact ⟨e'', rfl⟩
        | ok y => exact ⟨e', rfl⟩

/-- `parse_raw_instruction` fails exactly on an out-of-range `program_id_index`. -/
theorem parse_raw_instruction_error_iff (ui_instr : UiCompiledInstruction)
    (account_keys : List String) :
    (∃ e, parse_raw_instruction ui_instr account_keys = .error e) ↔
      account_keys.length ≤ ui_instr.program_id_index := by
  constructor
  · rintro ⟨e, he⟩
    by_contra hlt
    obtain ⟨info, hok, _⟩ :=
      (parse_raw_index_cases ui_instr account_keys []).2 (not_le.mp hlt)
    rw [hok] at he
    exact Except.noConfusion he
  · intro hge
    exact ⟨"Invalid program_id_index",
      ((parse_raw_index_cases ui_instr account_keys []).1 hge).1⟩

/-- A record with metadata but an unresolvable compiled instruction makes
assembly fail — refuting the claim that assembly fails only when metadata is
absent. -/
theorem c7_counterexample :
    c7Record.transaction.meta.isSome = true ∧
    parse_transaction c7Record "sig" = .error "Invalid program_id_index" := by
  constructor
  · rfl
  · rfl

/-- C7 (amended): assembly fails exactly when the record carries no execution
metadata, or the message is in compiled (raw) form and one of its instructions
has a `program_id_index` out of range of the resolvable account keys; in every
other case assembly totalizes the missing sub-fields. -/
theorem c7_assembly_error_iff (txn : EncodedConfirmedTransactionWithStatusMeta)
    (signature : String) :
    (∃ e, parse_transaction txn signature = .error e) ↔
      (txn.transaction.meta = Option.none ∨
        ∃ raw_msg, txn.transaction.transaction = .json (.raw raw_msg) ∧
          ∃ ui_instr ∈ raw_msg.instructions,
            (extractAccountKeys txn).length ≤ ui_instr.program_id_index) := by
  obtain ⟨slot, ⟨tx, metaOpt, version⟩, block_time⟩ := txn
  cases metaOpt with
  | none =>
    simp only [parse_transaction]
    constructor
    · intro _; exact Or.inl (by trivial)
    · intro _; exact ⟨"No transaction metadata", rfl⟩
  | some meta =>
    cases tx with
    | other =>
      simp only [parse_transaction, parse_instructions]
      constructor
      · rintro ⟨e, he⟩; exact Except.noConfusion he
      · rintro (h | ⟨raw_msg, hmsg, _⟩)
        · exact Option.noConfusion h
        · exact EncodedTransaction.noConfusion hmsg
    | json msg =>
      cases msg with
      | parsed parsed_msg =>
        simp only [parse_transaction, parse_instructions]
        constructor
        · rintro ⟨e, he⟩; exact Except.noConfusion he
        · rintro (h | ⟨raw_msg, hmsg, _⟩)
          · exact Option.noConfusion h
          · simp at hmsg
      | raw raw_msg =>
        simp only [parse_transaction, parse_instructions, extractAccountKeys]
        constructor
        · rintro ⟨e, he⟩
          cases hmap : mapExcept (fun ui_instr => parse_raw_instruction ui_instr
              (raw_msg.account_keys.filterMap pubkeyFromStr)) raw_msg.instructions with
          | ok instrs =>
            simp only [hmap] at he
            exact Except.noConfusion he
          | error e' =>
            obtain ⟨ui_instr, hmem, he''⟩ :=
              (mapExcept_error_exists (fun ui_instr => parse_raw_instruction ui_instr
                (raw_msg.account_keys.filterMap pubkeyFromStr)) raw_msg.instructions).mp
                ⟨e', hmap⟩
            exact Or.inr ⟨raw_msg, rfl,
              ui_instr, hmem, (parse_raw_instruction_error_iff _ _).mp he''⟩
        · rintro (h | ⟨raw_msg', hmsg, ui_instr, hmem, hge⟩)
          · exact Option.noConfusion h
          · cases hmsg
            obtain ⟨e, he⟩ :=
              (mapExcept_error_exists (fun ui_instr => parse_raw_instruction ui_instr
                (raw_msg.account_keys.filterMap pubkeyFromStr)) raw_msg.instructions).mpr
                ⟨ui_instr, hmem, (parse_raw_instruction_error_iff _ _).mpr hge⟩
            refine ⟨e, ?_⟩
            simp only [he]

/-! ## Claim C9 — instruction accounts vs top-level accounts -/

/-- Every element of a successful `mapExcept` image comes from some input. -/
theorem mapExcept_ok_forall {α ε β : Type} (f : α → Except ε β) :
    ∀ (l : List α) (ys : List β), mapExcept f l = .ok ys →
      ∀ y ∈ ys, ∃ x ∈ l, f x = .ok y := by
  intro l
  induction l with
  | nil =>
    intro ys h y hy
    simp only [mapExcept, Except.ok.injEq] at h
    subst h
    exact absurd hy (List.not_mem_nil y)
  | cons x xs ih =>
    intro ys h y hy
    simp only [mapExcept] at h
    cases hx : f x with
    | error e =>
      simp only [hx] at h
      exact Except.noConfusion h
    | ok y0 =>
      simp only [hx] at h
      cases hxs : mapExcept f xs with
      | error e =>
        simp only [hxs] at h
        exact Except.noConfusion h
      | ok ys0 =>
        simp only [hxs, Except.ok.injEq] at h
        subst h
        rcases List.mem_cons.mp hy with rfl | hy'
        · exact ⟨x, List.mem_cons_self x xs, hx⟩
        · obtain ⟨z, hz, hze⟩ := ih ys0 hxs y hy'
          exact ⟨z, List.mem_cons_of_mem x hz, hze⟩

/-- Every account pubkey of a normalized compiled instruction is one of the
resolution keys. -/
theorem parse_raw_instruction_accounts_mem (ui_instr : UiCompiledInstruction)
    (account_keys : List String) (info : InstructionInfo)
    (h : parse_raw_instruction ui_instr account_keys = .ok info) :
    ∀ meta ∈ info.accounts, meta.pubkey ∈ account_keys := by
  intro meta hmem
  unfold parse_raw_instruction at h
  cases hk : account_keys.get? ui_instr.program_id_index with
  | none => rw [hk] at h; exact Except.noConfusion h
  | some program_id =>
    rw [hk] at h
    simp only [Except.ok.injEq] at h
    subst h
    simp only [List.mem_filterMap] at hmem
    obtain ⟨idx, _, hsome⟩ := hmem
    cases hg : account_keys.get? idx with
    | none => rw [hg] at hsome; exact Option.noConfusion hsome
    | some pk =>
      rw [hg] at hsome
      simp only [Option.map, Option.some.injEq] at hsome
      subst hsome
      exact List.get?_mem hg

/-- The resolver's pubkey column is exactly the list of parseable keys. -/
theorem resolveRawAccountsAux_pubkeys (header : MessageHeader) (total : Nat)
    (pre_balances post_balances : List Nat) :
    ∀ (keys : List String) (idx : Nat),
      (resolveRawAccountsAux header total pre_balances post_balances idx keys).map
        AccountMeta.pubkey = keys.filterMap pubkeyFromStr := by
  intro keys
  induction keys with
  | nil => intro idx; rfl
  | cons key rest ih =>
    intro idx
    simp only [resolveRawAccountsAux, List.filterMap_cons]
    cases hk : pubkeyFromStr key with
    | none => exact ih (idx + 1)
    | some pk => simp only [List.map_cons, rawAccountMeta, ih (idx + 1)]

/-- A JSON-parsed message can reference instruction accounts that are absent
from the top-level account list: the claimed invariant fails on this record
(assembly succeeds and the coverage check is `false`). -/
theorem c9_counterexample :
    (parse_transaction c9Record "sig").map instructionAccountsCovered = .ok false := by
  rfl

/-- C9 (amended): for compiled (raw) messages each instruction-level account
pubkey does occur in the transaction's top-level account list, and a failed
program-id index lookup surfaces as a decode error rather than a fabricated
default key. -/
theorem c9_raw_accounts_covered (txn : EncodedConfirmedTransactionWithStatusMeta)
    (signature : String) (raw_msg : UiRawMessage) (td : TransactionData)
    (hmsg : txn.transaction.transaction = .json (.raw raw_msg))
    (hok : parse_transaction txn signature = .ok td) :
    instructionAccountsCovered td = true := by
  obtain ⟨slot, ⟨tx, metaOpt, version⟩, block_time⟩ := txn
  simp only at hmsg
  subst hmsg
  cases metaOpt with
  | none => exact Except.noConfusion hok
  | some meta =>
    simp only [parse_transaction, parse_instructions, extractAccountKeys] at hok
    cases hmap : mapExcept (fun ui_instr => parse_raw_instruction ui_instr
        (raw_msg.account_keys.filterMap pubkeyFromStr)) raw_msg.instructions with
    | error e =>
      rw [hmap] at hok
      exact Except.noConfusion hok
    | ok instrs =>
      rw [hmap] at hok
      simp only [Except.ok.injEq] at hok
      subst hok
      simp only [instructionAccountsCovered, List.all_eq_true]
      intro info hinfo
      obtain ⟨ui_instr, _, hui⟩ := mapExcept_ok_forall _ raw_msg.instructions instrs hmap info hinfo
      intro meta' hmeta'
      have hpk : meta'.pubkey ∈ raw_msg.account_keys.filterMap pubkeyFromStr :=
        parse_raw_instruction_accounts_mem ui_instr _ info hui meta' hmeta'
      have hcol : (resolveRawAccounts raw_msg.header raw_msg.account_keys
          meta.pre_balances meta.post_balances).map AccountMeta.pubkey =
            raw_msg.account_keys.filterMap pubkeyFromStr :=
        resolveRawAccountsAux_pubkeys raw_msg.header raw_msg.account_keys.length
          meta.pre_balances meta.post_balances raw_msg.account_keys 0
      rw [← hcol] at hpk
      simp only [List.mem_map] at hpk
      obtain ⟨top, htop, heq⟩ := hpk
      simp only [List.any_eq_true]
      exact ⟨top, htop, by simp [heq]⟩

/-- A raw-message record whose single instruction references key index 1. -/
def c9wRaw : UiRawMessage :=
  { header := ⟨1, 0, 0⟩
    account_keys := [defaultPubkey, tokenProgramId]
    instructions := [⟨0, [1], "8"⟩] }

/-- The record wrapping `c9wRaw` with minimal metadata. -/
def c9wRecord : EncodedConfirmedTransactionWithStatusMeta :=
  { slot := 7
    transaction :=
      { transaction := .json (.raw c9wRaw)
        meta := some minimalMeta
        version := .none }
    block_time := .none }

/-- Fallback `TransactionData` used only to extract the successful result. -/
def blankTransactionData : TransactionData :=
  { signature := "", slot := 0, block_time := .none, fee := 0
    status := .success, instructions := [], accounts := [], logs := []
    compute_units_consumed := .none, version := .none, token_transfers := []
    sol_transfers := [], priority_fee := .none, max_compute_units := .none }

/-- The assembled output of `c9wRecord`. -/
def c9wTd : TransactionData :=
  (parse_transaction c9wRecord "sig").toOption.getD blankTransactionData

/-- Witness: the amended coverage invariant holds on a concrete raw-message
record. -/
theorem c9_raw_accounts_covered_witness : instructionAccountsCovered c9wTd = true :=
  c9_raw_accounts_covered c9wRecord "sig" c9wRaw c9wTd rfl (by rfl)

end SolanaTui
